import Mathlib

/-!
Verification of the helpdesk ticket assignment engine of the
flask-community-webapp repository (package `eventbridge_plus`).

The development is a shallow embedding of the Python source:

* `eventbridge_plus/assign_request.py` — technician directory
  (`get_available_technicians`), workload scorers
  (`calculate_technician_workload`, `get_technician_current_workload`),
  single-ticket selection (`find_least_busy_technician`) and the batch
  distributor (`bulk_auto_assign_balanced`);
* `eventbridge_plus/helpdesk.py` — the ticket lifecycle state machine
  (`get_valid_status_transitions`, `validate_status_transition`) and the
  mutation primitive (`update_help_request_status`).

Modelling conventions:

* The SQL store is modelled as in-memory lists of records (`User`,
  `HelpRequest`); each SQL statement is translated to the corresponding
  list operation (filter / find / map).
* Python `float` arithmetic is modelled by `ℚ`; the `float('inf')`
  sentinel of the scorer is modelled by `⊤` in `WithTop ℚ`.
* Timestamps (`datetime`) are rational numbers of seconds; `NOW()` is an
  explicit `now` parameter.
* Python functions whose `try`/`except` swallows a store failure take the
  store outcome as an `Except Unit` argument; the `except` branch is the
  `.error` case.
* Notification side effects (`create_noti`) carry no engine state and are
  omitted; every `create_noti` call in the source is individually wrapped
  in `try ... except: pass`.
-/

namespace EventbridgePlus

/-- A row of the `users` table, restricted to the columns the assignment
engine reads (`user_id`, `platform_role`, `status`). -/
structure User where
  user_id : Nat
  platform_role : String
  status : String
deriving DecidableEq, Repr

/-- A row of the `help_requests` table, restricted to the columns the
engine reads and writes. -/
structure HelpRequest where
  request_id : Nat
  user_id : Nat
  priority : String
  status : String
  assigned_to : Option Nat
  created_at : ℚ
  updated_at : Option ℚ
  resolved_at : Option ℚ
deriving DecidableEq, Repr

/-- Python `dict.get(key, default)` over a literal association list. -/
def dictGet {α : Type} (m : List (String × α)) (k : String) (d : α) : α :=
  match m.find? (fun kv => kv.1 == k) with
  | some kv => kv.2
  | none => d

/-- `PRIORITY_WEIGHTS` from assign_request.py. -/
def PRIORITY_WEIGHTS : List (String × ℚ) :=
  [("urgent", 4), ("medium", 2), ("low", 1)]

/-- `STATUS_WEIGHTS` from assign_request.py. -/
def STATUS_WEIGHTS : List (String × ℚ) :=
  [("assigned", 1), ("blocked", 1/2)]

/-- The row filter of the two SQL queries in `get_available_technicians`:
for `high` priority only active super admins, otherwise active super
admins and support technicians. -/
def availablePred (priority : String) (u : User) : Bool :=
  if priority = "high" then
    u.platform_role == "super_admin" && u.status == "active"
  else
    (u.platform_role == "super_admin" || u.platform_role == "support_technician")
      && u.status == "active"

/-- `ORDER BY user_id` of `get_available_technicians`. -/
def userIdLe (a b : User) : Prop := a.user_id ≤ b.user_id

instance : DecidableRel userIdLe := fun a b => Nat.decLe a.user_id b.user_id

instance : IsTotal User userIdLe := ⟨fun a b => Nat.le_total a.user_id b.user_id⟩

instance : IsTrans User userIdLe := ⟨fun _ _ _ h h2 => Nat.le_trans h h2⟩

/-- `get_available_technicians(priority)` from assign_request.py: the
matching `users` rows ordered by ascending `user_id`. -/
def get_available_technicians (users : List User) (priority : String) : List User :=
  List.insertionSort userIdLe (users.filter (availablePred priority))

/-- The `WHERE assigned_to = %s AND status IN ('assigned','blocked')`
filter shared by both workload scorers. -/
def activeFor (db : List HelpRequest) (tid : Nat) : List HelpRequest :=
  db.filter (fun r =>
    r.assigned_to == some tid && (r.status == "assigned" || r.status == "blocked"))

/-- The per-request weight computed in the loop body of
`calculate_technician_workload`:
`priority_weight * status_weight * time_factor`. -/
def requestWeight (now : ℚ) (r : HelpRequest) : ℚ :=
  let priority_weight := dictGet PRIORITY_WEIGHTS r.priority 1
  let status_weight := dictGet STATUS_WEIGHTS r.status 1
  let assigned_time := r.updated_at.getD r.created_at
  let hours_since_assigned := (now - assigned_time) / 3600
  let time_factor := 1 + hours_since_assigned * (1/10)
  priority_weight * status_weight * time_factor

/-- `calculate_technician_workload(technician_id)` from assign_request.py,
success path (store read succeeded): `0.0` when the technician has no
active requests, otherwise the accumulated sum of request weights. -/
def calculate_technician_workload (db : List HelpRequest) (tid : Nat) (now : ℚ) : ℚ :=
  let requests := activeFor db tid
  if requests.isEmpty then 0
  else requests.foldl (fun acc r => acc + requestWeight now r) 0

/-- `calculate_technician_workload` with its surrounding `try`/`except`:
the store outcome is an argument, and the `except` branch returns the
numeric sentinel `float('inf')`, modelled `⊤ : WithTop ℚ`.  The result
type `Except Unit (WithTop ℚ)` records whether the caller receives an
error or a value. -/
def calculate_technician_workload_r (store : Except Unit (List HelpRequest))
    (tid : Nat) (now : ℚ) : Except Unit (WithTop ℚ) :=
  match store with
  | .ok db => .ok ((calculate_technician_workload db tid now : ℚ) : WithTop ℚ)
  | .error _ => .ok ⊤

/-- `get_technician_current_workload(technician_id)` from
assign_request.py: the count of active requests; the `except` branch
returns the numeric sentinel `999`. -/
def get_technician_current_workload (store : Except Unit (List HelpRequest))
    (tid : Nat) : Except Unit Nat :=
  match store with
  | .ok db => .ok (activeFor db tid).length
  | .error _ => .ok 999

/-- The accumulator loop of `find_least_busy_technician`: starting from
`best_technician = None`, `lowest_workload = float('inf')`, each
candidate replaces the current best exactly when its workload is
strictly lower.  `w` gives the workload value the scorer returned for
each technician id (`⊤` models `float('inf')`). -/
def flbStep (w : Nat → WithTop ℚ) (st : Option User × WithTop ℚ) (t : User) :
    Option User × WithTop ℚ :=
  if w t.user_id < st.2 then (some t, w t.user_id) else st

/-- The whole candidate scan of `find_least_busy_technician`. -/
def findLeastBusyFold (w : Nat → WithTop ℚ) (techs : List User) :
    Option User × WithTop ℚ :=
  techs.foldl (flbStep w) (none, ⊤)

/-- `find_least_busy_technician(priority)` from assign_request.py:
`(None, None)` on an empty pool, otherwise the loop result. -/
def find_least_busy_technician (users : List User) (priority : String)
    (w : Nat → WithTop ℚ) : Option User × Option (WithTop ℚ) :=
  let available_technicians := get_available_technicians users priority
  if available_technicians.isEmpty then (none, none)
  else
    let r := findLeastBusyFold w available_technicians
    (r.1, some r.2)

/-- `get_valid_status_transitions(current_status)` from helpdesk.py
(`status_transitions.get(current_status, [])`). -/
def get_valid_status_transitions (current_status : String) : List String :=
  if current_status = "new" then ["assigned", "solved"]
  else if current_status = "assigned" then ["new", "blocked", "solved"]
  else if current_status = "blocked" then ["new", "assigned", "solved"]
  else if current_status = "solved" then []
  else []

/-- `is_valid_status_transition(current_status, new_status)` from
helpdesk.py. -/
def is_valid_status_transition (current_status new_status : String) : Bool :=
  (get_valid_status_transitions current_status).contains new_status

/-- `validate_status_transition(current_status, new_status)` from
helpdesk.py: `none` when the move is legal (same state is always legal),
otherwise an error message. -/
def validate_status_transition (current_status new_status : String) : Option String :=
  if current_status = new_status then none
  else if !(is_valid_status_transition current_status new_status) then
    some (if current_status = "solved" then
            "Cannot change status from solved. This request is already solved."
          else
            "Invalid transition")
  else none

/-- The `UPDATE help_requests SET ...` row rewrite of
`update_help_request_status`: `status` and `updated_at` always,
`assigned_to` always (the given id or NULL), `priority` only when given,
and `resolved_at` exactly when the literal target string is
`"resolved"`. -/
def applyStatusUpdate (now : ℚ) (status : String) (assigned_to : Option Nat)
    (priority : Option String) (r : HelpRequest) : HelpRequest :=
  { r with
    status := status
    updated_at := some now
    assigned_to := assigned_to
    priority := priority.getD r.priority
    resolved_at := if status = "resolved" then some now else r.resolved_at }

/-- `update_help_request_status(request_id, status, assigned_to, priority,
bypass_validation)` from helpdesk.py, success path of the store: returns
the Python boolean result together with the resulting table.  The initial
`SELECT` joins `help_requests` with `users` on the owner, so a missing
ticket or a missing owner row yields `(false, db)`; an invalid transition
(unless bypassed) yields `(false, db)`; otherwise the row rewrite is
applied to the matching rows. -/
def update_help_request_status (users : List User) (db : List HelpRequest)
    (now : ℚ) (request_id : Nat) (status : String) (assigned_to : Option Nat)
    (priority : Option String) (bypass_validation : Bool) :
    Bool × List HelpRequest :=
  match db.find? (fun r => r.request_id == request_id) with
  | none => (false, db)
  | some t =>
    if (users.find? (fun u => u.user_id == t.user_id)).isNone then (false, db)
    else if !bypass_validation && (validate_status_transition t.status status).isSome then
      (false, db)
    else
      (true, db.map (fun r =>
        if r.request_id == request_id then
          applyStatusUpdate now status assigned_to priority r
        else r))

/-- Modelled from the spec: the database cursor layer (module
`eventbridge_plus.db`, used as `with db.get_cursor() as cursor`) is not
part of the source tree — only its callers are.  Per the spec's
error-handling contract, a store failure anywhere inside the operation is
caught and reported as a boolean failure with no mutation of the ticket
store.  `storeOk = false` models such a failure: the transaction aborts
and the table is left as found. -/
def update_help_request_status_store (storeOk : Bool) (users : List User)
    (db : List HelpRequest) (now : ℚ) (request_id : Nat) (status : String)
    (assigned_to : Option Nat) (priority : Option String)
    (bypass_validation : Bool) : Bool × List HelpRequest :=
  if storeOk then
    update_help_request_status users db now request_id status assigned_to
      priority bypass_validation
  else (false, db)

/-- One entry of the `technician_workloads` dict of
`bulk_auto_assign_balanced`: the technician record, the snapshot
`current_workload`, and the running `new_assignments` counter.  The dict
is keyed by `user_id` in pool order (ascending `user_id`), modelled as a
list in that order. -/
structure Entry where
  user : User
  current_workload : ℚ
  new_assignments : Nat
deriving DecidableEq, Repr

/-- `current_workload + new_assignments`, the key minimised at each step
of the batch loop. -/
def entryTotal (e : Entry) : ℚ := e.current_workload + e.new_assignments

/-- Python `min(keys, key=...)` over the workload dict: scans in
insertion order, replacing the current best only on a strictly smaller
key, so the first minimal entry wins. -/
def pickBest (best x : Entry) : Entry :=
  if entryTotal x < entryTotal best then x else best

/-- Python `min(keys, key=...)` over the workload dict (continued):
`selectMin` applies the scan to a list of entries. -/
def selectMin : List Entry → Option Entry
  | [] => none
  | e :: es => some (es.foldl pickBest e)

/-- `technician_workloads[best_tech_id]['new_assignments'] += 1`. -/
def incrementPending (uid : Nat) (l : List Entry) : List Entry :=
  l.map (fun e =>
    if e.user.user_id == uid then { e with new_assignments := e.new_assignments + 1 }
    else e)

/-- A row of the `unassigned_requests` argument of
`bulk_auto_assign_balanced` (the columns its loop reads). -/
structure ReqRow where
  request_id : Nat
  priority : String
  created_at : ℚ
deriving DecidableEq, Repr

/-- The sort rank `{'urgent': 1, 'medium': 2, 'low': 3}.get(priority, 4)`
of the batch distributor. -/
def priorityRank (p : String) : Nat :=
  dictGet [("urgent", 1), ("medium", 2), ("low", 3)] p 4

/-- Lexicographic comparison on `(priority_rank, created_at)`, the sort
key of the batch distributor. -/
def reqKeyLe (a b : ReqRow) : Prop :=
  priorityRank a.priority < priorityRank b.priority ∨
    (priorityRank a.priority = priorityRank b.priority ∧ a.created_at ≤ b.created_at)

instance : DecidableRel reqKeyLe := fun a b => by
  unfold reqKeyLe; infer_instance

instance : IsTotal ReqRow reqKeyLe :=
  ⟨fun a b => by
    rcases Nat.lt_trichotomy (priorityRank a.priority) (priorityRank b.priority) with h | h | h
    · exact Or.inl (Or.inl h)
    · rcases le_total a.created_at b.created_at with h2 | h2
      · exact Or.inl (Or.inr ⟨h, h2⟩)
      · exact Or.inr (Or.inr ⟨h.symm, h2⟩)
    · exact Or.inr (Or.inl h)⟩

instance : IsTrans ReqRow reqKeyLe :=
  ⟨fun a b c hab hbc => by
    rcases hab with h1 | ⟨h1, h1q⟩
    · rcases hbc with h2 | ⟨h2, _⟩
      · exact Or.inl (Nat.lt_trans h1 h2)
      · exact Or.inl (h2 ▸ h1)
    · rcases hbc with h2 | ⟨h2, h2q⟩
      · exact Or.inl (h1 ▸ h2)
      · exact Or.inr ⟨h1.trans h2, h1q.trans h2q⟩⟩

/-- The `sorted(unassigned_requests, key=...)` call of the batch
distributor: ascending `(priority_rank, created_at)`. -/
def sortRequests (l : List ReqRow) : List ReqRow :=
  List.insertionSort reqKeyLe l

/-- The loop state of `bulk_auto_assign_balanced`. -/
structure BulkState where
  db : List HelpRequest
  counts : List Entry
  assigned_count : Nat
  failures : List (Nat × String)
deriving DecidableEq, Repr

/-- One iteration of the batch loop: pick the entry minimising
`current_workload + new_assignments`; if the ticket is `high` priority
and the picked technician is not a super admin, record the
no-super-admin failure and move on; otherwise attempt the transition to
`assigned`, incrementing the winner's counter on success and recording a
failure otherwise. -/
def bulkStep (users : List User) (now : ℚ) (s : BulkState) (req : ReqRow) :
    BulkState :=
  match selectMin s.counts with
  | none => s
  | some best =>
    if req.priority = "high" ∧ best.user.platform_role ≠ "super_admin" then
      { s with failures := s.failures ++
          [(req.request_id, "No super admin available for high priority request")] }
    else
      let r := update_help_request_status users s.db now req.request_id
        "assigned" (some best.user.user_id) (some req.priority) false
      if r.1 then
        { db := r.2
          counts := incrementPending best.user.user_id s.counts
          assigned_count := s.assigned_count + 1
          failures := s.failures }
      else
        { s with db := r.2
                 failures := s.failures ++
                   [(req.request_id, "Failed to update request status")] }

/-- `bulk_auto_assign_balanced(unassigned_requests)` from
assign_request.py, success path of the store: fetch the both-role pool
(the call uses the default `priority='medium'`), snapshot each
technician's weighted workload, sort the backlog, and fold the batch
loop; returns `(assigned_count, failed_assignments)` together with the
resulting table. -/
def bulk_auto_assign_balanced (users : List User) (db : List HelpRequest)
    (now : ℚ) (reqs : List ReqRow) : Nat × List (Nat × String) × List HelpRequest :=
  let technicians := get_available_technicians users "medium"
  if technicians.isEmpty then
    (0, reqs.map (fun r => (r.request_id, "No available technicians found")), db)
  else
    let counts := technicians.map (fun t =>
      { user := t
        current_workload := calculate_technician_workload db t.user_id now
        new_assignments := 0 : Entry })
    let final := (sortRequests reqs).foldl (bulkStep users now)
      { db := db, counts := counts, assigned_count := 0, failures := [] }
    (final.assigned_count, final.failures, final.db)

/-- The spec's priority weight table (§4.2): urgent 4.0, medium 2.0,
low 1.0, and any other value — including `high` — 1.0 by fallback. -/
def priorityWeightSpec (p : String) : ℚ :=
  if p = "urgent" then 4 else if p = "medium" then 2 else if p = "low" then 1 else 1

/-- The spec's status weight table (§4.2): assigned 1.0, blocked 0.5. -/
def statusWeightSpec (s : String) : ℚ :=
  if s = "assigned" then 1 else if s = "blocked" then 1/2 else 1

/-- The spec's workload formula (§4.2): the sum over the technician's
active tickets of `priority_weight * status_weight * time_factor`, where
`time_factor = 1 + 0.1 * hours_since(updated_at or created_at)`. -/
def workloadSpec (db : List HelpRequest) (tid : Nat) (now : ℚ) : ℚ :=
  ((activeFor db tid).map (fun r =>
    priorityWeightSpec r.priority * statusWeightSpec r.status *
      (1 + ((now - (r.updated_at.getD r.created_at)) / 3600) * (1/10)))).sum

/-! ### Helper lemmas about the candidate scans -/

theorem flbStep_pos (w : Nat → WithTop ℚ) (st : Option User × WithTop ℚ)
    (t : User) (h : w t.user_id < st.2) :
    flbStep w st t = (some t, w t.user_id) := by
  unfold flbStep
  rw [if_pos h]

theorem flbStep_neg (w : Nat → WithTop ℚ) (st : Option User × WithTop ℚ)
    (t : User) (h : ¬ w t.user_id < st.2) : flbStep w st t = st := by
  unfold flbStep
  rw [if_neg h]

theorem flb_snd_le (w : Nat → WithTop ℚ) :
    ∀ (ts : List User) (st : Option User × WithTop ℚ),
      (List.foldl (flbStep w) st ts).2 ≤ st.2 := by
  intro ts
  induction ts with
  | nil => intro st; exact le_refl _
  | cons t ts ih =>
    intro st
    simp only [List.foldl_cons]
    by_cases h : w t.user_id < st.2
    · rw [flbStep_pos w st t h]
      exact le_trans (ih _) (le_of_lt h)
    · rw [flbStep_neg w st t h]
      exact ih st

theorem flb_snd_min (w : Nat → WithTop ℚ) :
    ∀ (ts : List User) (st : Option User × WithTop ℚ) (x : User), x ∈ ts →
      (List.foldl (flbStep w) st ts).2 ≤ w x.user_id := by
  intro ts
  induction ts with
  | nil => intro st x hx; cases hx
  | cons t ts ih =>
    intro st x hx
    simp only [List.foldl_cons]
    cases hx with
    | head =>
      refine le_trans (flb_snd_le w ts _) ?_
      by_cases h : w t.user_id < st.2
      · rw [flbStep_pos w st t h]
      · rw [flbStep_neg w st t h]
        exact le_of_not_lt h
    | tail _ hx => exact ih _ x hx

theorem flb_fst_mem (w : Nat → WithTop ℚ) :
    ∀ (ts : List User) (st : Option User × WithTop ℚ),
      (List.foldl (flbStep w) st ts).1 = st.1 ∨
        ∃ t ∈ ts, (List.foldl (flbStep w) st ts).1 = some t := by
  intro ts
  induction ts with
  | nil => intro st; exact Or.inl rfl
  | cons t ts ih =>
    intro st
    simp only [List.foldl_cons]
    by_cases hc : w t.user_id < st.2
    · rw [flbStep_pos w st t hc]
      rcases ih (some t, w t.user_id) with h | ⟨u, hu, h⟩
      · exact Or.inr ⟨t, List.mem_cons_self t ts, h⟩
      · exact Or.inr ⟨u, List.mem_cons_of_mem _ hu, h⟩
    · rw [flbStep_neg w st t hc]
      rcases ih st with h | ⟨u, hu, h⟩
      · exact Or.inl h
      · exact Or.inr ⟨u, List.mem_cons_of_mem _ hu, h⟩

theorem flb_skip (w : Nat → WithTop ℚ) (st : Option User × WithTop ℚ)
    (b : User) (ts : List User) (h : ¬ w b.user_id < st.2) :
    List.foldl (flbStep w) st (b :: ts) = List.foldl (flbStep w) st ts := by
  simp only [List.foldl_cons, flbStep_neg w st b h]

theorem pickBest_pos (b0 x : Entry) (h : entryTotal x < entryTotal b0) :
    pickBest b0 x = x := by
  unfold pickBest
  rw [if_pos h]

theorem pickBest_neg (b0 x : Entry) (h : ¬ entryTotal x < entryTotal b0) :
    pickBest b0 x = b0 := by
  unfold pickBest
  rw [if_neg h]

theorem pb_le : ∀ (ts : List Entry) (b0 : Entry),
    entryTotal (List.foldl pickBest b0 ts) ≤ entryTotal b0 := by
  intro ts
  induction ts with
  | nil => intro b0; exact le_refl _
  | cons t ts ih =>
    intro b0
    simp only [List.foldl_cons]
    by_cases h : entryTotal t < entryTotal b0
    · rw [pickBest_pos b0 t h]
      exact le_trans (ih t) (le_of_lt h)
    · rw [pickBest_neg b0 t h]
      exact ih b0

theorem pb_min : ∀ (ts : List Entry) (b0 x : Entry), x ∈ ts →
    entryTotal (List.foldl pickBest b0 ts) ≤ entryTotal x := by
  intro ts
  induction ts with
  | nil => intro b0 x hx; cases hx
  | cons t ts ih =>
    intro b0 x hx
    simp only [List.foldl_cons]
    cases hx with
    | head =>
      refine le_trans (pb_le ts _) ?_
      by_cases h : entryTotal t < entryTotal b0
      · rw [pickBest_pos b0 t h]
      · rw [pickBest_neg b0 t h]
        exact le_of_not_lt h
    | tail _ hx => exact ih _ x hx

theorem pb_mem : ∀ (ts : List Entry) (b0 : Entry),
    List.foldl pickBest b0 ts = b0 ∨ List.foldl pickBest b0 ts ∈ ts := by
  intro ts
  induction ts with
  | nil => intro b0; exact Or.inl rfl
  | cons t ts ih =>
    intro b0
    simp only [List.foldl_cons]
    by_cases hc : entryTotal t < entryTotal b0
    · rw [pickBest_pos b0 t hc]
      rcases ih t with h | h
      · rw [h]
        exact Or.inr (List.mem_cons_self t ts)
      · exact Or.inr (List.mem_cons_of_mem _ h)
    · rw [pickBest_neg b0 t hc]
      rcases ih b0 with h | h
      · exact Or.inl h
      · exact Or.inr (List.mem_cons_of_mem _ h)

theorem pb_skip (b0 b : Entry) (ts : List Entry)
    (h : entryTotal b0 ≤ entryTotal b) :
    List.foldl pickBest b0 (b :: ts) = List.foldl pickBest b0 ts := by
  simp only [List.foldl_cons, pickBest_neg b0 b (not_lt.mpr h)]

theorem pb_drop_tied (p l3 : List Entry) (b0 a b : Entry)
    (ha : a = b0 ∨ a ∈ p) (heq : entryTotal a = entryTotal b) :
    List.foldl pickBest b0 (p ++ b :: l3) = List.foldl pickBest b0 (p ++ l3) := by
  rw [List.foldl_append, List.foldl_append]
  apply pb_skip
  have h1 : entryTotal (List.foldl pickBest b0 p) ≤ entryTotal a := by
    rcases ha with rfl | ha
    · exact pb_le p a
    · exact pb_min p b0 a ha
  exact heq ▸ h1

/-! ### Helper lemmas about the string tables -/

theorem dictGet_priority_weight (p : String) :
    dictGet PRIORITY_WEIGHTS p 1 = priorityWeightSpec p := by
  by_cases h1 : p = "urgent"
  · subst h1; rfl
  by_cases h2 : p = "medium"
  · subst h2; rfl
  by_cases h3 : p = "low"
  · subst h3; rfl
  have e1 : ("urgent" == p) = false := beq_eq_false_iff_ne.mpr (Ne.symm h1)
  have e2 : ("medium" == p) = false := beq_eq_false_iff_ne.mpr (Ne.symm h2)
  have e3 : ("low" == p) = false := beq_eq_false_iff_ne.mpr (Ne.symm h3)
  simp [dictGet, PRIORITY_WEIGHTS, List.find?, e1, e2, e3, priorityWeightSpec, h1, h2, h3]

theorem dictGet_status_weight (s : String) :
    dictGet STATUS_WEIGHTS s 1 = statusWeightSpec s := by
  by_cases h1 : s = "assigned"
  · subst h1; rfl
  by_cases h2 : s = "blocked"
  · subst h2; rfl
  have e1 : ("assigned" == s) = false := beq_eq_false_iff_ne.mpr (Ne.symm h1)
  have e2 : ("blocked" == s) = false := beq_eq_false_iff_ne.mpr (Ne.symm h2)
  simp [dictGet, STATUS_WEIGHTS, List.find?, e1, e2, statusWeightSpec, h1, h2]

theorem priorityRank_other (p : String) (h1 : p ≠ "urgent") (h2 : p ≠ "medium")
    (h3 : p ≠ "low") : priorityRank p = 4 := by
  have e1 : ("urgent" == p) = false := beq_eq_false_iff_ne.mpr (Ne.symm h1)
  have e2 : ("medium" == p) = false := beq_eq_false_iff_ne.mpr (Ne.symm h2)
  have e3 : ("low" == p) = false := beq_eq_false_iff_ne.mpr (Ne.symm h3)
  simp [priorityRank, dictGet, List.find?, e1, e2, e3]

/-! ### Helper lemmas about the state machine -/

theorem valid_from_solved (s : String) :
    is_valid_status_transition "solved" s = false := by
  have h : get_valid_status_transitions "solved" = [] := by decide
  unfold is_valid_status_transition
  rw [h]
  rfl

theorem validate_from_solved (s : String) (h : s ≠ "solved") :
    (validate_status_transition "solved" s).isSome = true := by
  unfold validate_status_transition
  rw [if_neg (Ne.symm h), valid_from_solved]
  rfl

theorem validate_none_from_solved (s : String)
    (h : validate_status_transition "solved" s = none) : s = "solved" := by
  by_cases hq : s = "solved"
  · exact hq
  · have := validate_from_solved s hq
    rw [h] at this
    cases this

/-! ### Claim theorems -/

/-- Claim C2 (code_bug evidence): evaluating `update_help_request_status`
at a ticket in status `assigned` being transitioned to the terminal state
`solved` shows the transition is accepted and `updated_at` is refreshed,
but `resolved_at` is left `none`: the source guards the `resolved_at`
write with `status == 'resolved'`, a string that is not a state of the
machine (`new`/`assigned`/`blocked`/`solved`), so `resolved_at` is never
set on reaching `solved` — contradicting the spec and the repository's
own reply handler, which writes `status = 'solved', resolved_at = NOW()`
together. -/
theorem c2_resolved_at_not_set_on_solved :
    update_help_request_status [⟨1, "member", "active"⟩]
      [⟨5, 1, "low", "assigned", some 2, 0, some 0, none⟩]
      50 5 "solved" (some 2) none false
    = (true, [⟨5, 1, "low", "solved", some 2, 0, some 50, none⟩]) := by decide

/-- Claim C3 (counterexample): a store read failure in the workload
scorers is not surfaced to the caller as an error: both scorers catch
the failure and return an ordinary numeric value (`float('inf')`,
modelled `⊤`, for the weighted scorer; `999` for the simple count). -/
theorem c3_counterexample :
    calculate_technician_workload_r (Except.error ()) 1 0
      = Except.ok (⊤ : WithTop ℚ)
    ∧ get_technician_current_workload (Except.error ()) 1 = Except.ok 999 :=
  ⟨rfl, rfl⟩

/-- Claim C3 (amended): for every technician, a scorer failure is
reported as a maximal numeric sentinel — `⊤` (infinity) for the weighted
scorer and `999` for the simple count — and never as zero load. -/
theorem c3_scorer_failure_sentinel (tid : Nat) (now : ℚ) :
    calculate_technician_workload_r (Except.error ()) tid now
      = Except.ok (⊤ : WithTop ℚ)
    ∧ (⊤ : WithTop ℚ) ≠ ((0 : ℚ) : WithTop ℚ)
    ∧ get_technician_current_workload (Except.error ()) tid = Except.ok 999
    ∧ (999 : Nat) ≠ 0 :=
  ⟨rfl, by simp, rfl, by decide⟩

/-- Claim C5: every invocation of the transition primitive that reports
failure leaves the ticket store exactly as it was: all three failure
paths (store failure, ticket/owner not found, invalid transition) return
the table unchanged. -/
theorem c5_no_mutation_on_failure (storeOk : Bool) (users : List User)
    (db : List HelpRequest) (now : ℚ) (rid : Nat) (status : String)
    (assigned_to : Option Nat) (priority : Option String) (byp : Bool)
    (db2 : List HelpRequest)
    (h : update_help_request_status_store storeOk users db now rid status
          assigned_to priority byp = (false, db2)) :
    db2 = db := by
  unfold update_help_request_status_store at h
  by_cases hs : storeOk
  · rw [if_pos hs] at h
    unfold update_help_request_status at h
    split at h
    · injection h with h1 h2
      exact h2.symm
    · split at h
      · injection h with h1 h2
        exact h2.symm
      · split at h
        · injection h with h1 h2
          exact h2.symm
        · injection h with h1 h2
          cases h1
  · rw [if_neg hs] at h
    injection h with h1 h2
    exact h2.symm

/-- Witness for C5: a rejected transition out of `solved` leaves the
concrete one-ticket table unchanged. -/
theorem c5_witness :
    ([⟨5, 1, "low", "solved", some 7, 0, none, some 0⟩] : List HelpRequest)
    = [⟨5, 1, "low", "solved", some 7, 0, none, some 0⟩] :=
  c5_no_mutation_on_failure true [⟨1, "member", "active"⟩]
    [⟨5, 1, "low", "solved", some 7, 0, none, some 0⟩] 10 5 "assigned"
    none none false
    [⟨5, 1, "low", "solved", some 7, 0, none, some 0⟩] (by decide)

/-- Claim C10: every successful transition applied with the assignee
argument omitted (`assigned_to = None`) stores NULL in `assigned_to` of
the updated ticket — the source's else-branch appends
`assigned_to = NULL` unconditionally, so passing no assignee never
preserves an existing one. -/
theorem c10_omitted_assignee_nulls (users : List User)
    (db : List HelpRequest) (now : ℚ) (rid : Nat) (status : String)
    (priority : Option String) (byp : Bool) (db2 : List HelpRequest)
    (h : update_help_request_status users db now rid status none priority byp
          = (true, db2)) :
    ∀ r ∈ db2, r.request_id = rid → r.assigned_to = none := by
  unfold update_help_request_status at h
  split at h
  · injection h with h1 h2
    cases h1
  · split at h
    · injection h with h1 h2
      cases h1
    · split at h
      · injection h with h1 h2
        cases h1
      · injection h with h1 h2
        cases h2
        intro r hr hridEq
        rcases List.mem_map.mp hr with ⟨r0, hr0, hmap⟩
        by_cases hid : (r0.request_id == rid) = true
        · rw [if_pos hid] at hmap
          rw [← hmap]
          rfl
        · rw [if_neg hid] at hmap
          subst hmap
          exact absurd (beq_iff_eq.mpr hridEq) hid

/-- Witness for C10: a ticket assigned to technician 7, transitioned
from `assigned` to `blocked` with no assignee argument, ends
unassigned. -/
theorem c10_witness :
    (⟨5, 1, "low", "blocked", none, 0, some 3, none⟩ : HelpRequest).assigned_to
    = none :=
  c10_omitted_assignee_nulls [⟨1, "member", "active"⟩]
    [⟨5, 1, "low", "assigned", some 7, 0, none, none⟩] 3 5 "blocked" none false
    [⟨5, 1, "low", "blocked", none, 0, some 3, none⟩] (by decide)
    ⟨5, 1, "low", "blocked", none, 0, some 3, none⟩ (by decide) rfl

/-- Claim C1 (counterexample): with active super admin 1 (carrying one
active ticket, workload 1) and active support technician 2 (workload 0)
both in the pool, the batch distributor records
"No super admin available for high priority request" for the high
priority ticket 20 — because it first picks the global minimiser
(technician 2) over the full both-role pool and only then checks the
role — even though an active super admin is present. -/
theorem c1_counterexample :
    bulk_auto_assign_balanced
      [⟨1, "super_admin", "active"⟩, ⟨2, "support_technician", "active"⟩]
      [⟨10, 1, "low", "assigned", some 1, 0, some 0, none⟩,
       ⟨20, 1, "high", "new", none, 0, none, none⟩]
      0 [⟨20, "high", 0⟩]
    = (0, [(20, "No super admin available for high priority request")],
       [⟨10, 1, "low", "assigned", some 1, 0, some 0, none⟩,
        ⟨20, 1, "high", "new", none, 0, none, none⟩])
    ∧ (⟨1, "super_admin", "active"⟩ : User) ∈
        get_available_technicians
          [⟨1, "super_admin", "active"⟩, ⟨2, "support_technician", "active"⟩]
          "medium" := by
  constructor
  · simp [bulk_auto_assign_balanced, get_available_technicians, availablePred,
      userIdLe, calculate_technician_workload, activeFor, requestWeight, dictGet,
      PRIORITY_WEIGHTS, STATUS_WEIGHTS, sortRequests, reqKeyLe, priorityRank,
      bulkStep, selectMin, pickBest, entryTotal, incrementPending,
      update_help_request_status, applyStatusUpdate, validate_status_transition,
      is_valid_status_transition, get_valid_status_transitions,
      List.insertionSort, List.orderedInsert, List.foldl, List.find?, List.filter]
  · decide

/-- Claim C1 (amended): for a high priority ticket the batch distributor
selects the minimiser of `current_workload + new_assignments` over the
full both-role pool; the no-super-admin failure is recorded exactly when
that selected technician is not a super admin (even if another active
super admin is in the pool), and on that failure neither the counters,
the table, nor the assigned count change.  When the selected technician
is a super admin, that failure message is never recorded. -/
theorem c1_high_failure_iff_selected_not_admin (users : List User) (now : ℚ)
    (s : BulkState) (req : ReqRow) (best : Entry)
    (hsel : selectMin s.counts = some best)
    (hhigh : req.priority = "high") :
    (best.user.platform_role ≠ "super_admin" →
      bulkStep users now s req =
        { s with failures := s.failures ++
            [(req.request_id, "No super admin available for high priority request")] })
    ∧ (best.user.platform_role = "super_admin" →
        (bulkStep users now s req).failures = s.failures ∨
          (bulkStep users now s req).failures = s.failures ++
            [(req.request_id, "Failed to update request status")]) := by
  constructor
  · intro hrole
    unfold bulkStep
    rw [hsel]
    dsimp only
    rw [if_pos ⟨hhigh, hrole⟩]
  · intro hrole
    unfold bulkStep
    rw [hsel]
    dsimp only
    rw [if_neg (fun hc => hc.2 hrole)]
    by_cases hu : (update_help_request_status users s.db now req.request_id
        "assigned" (some best.user.user_id) (some req.priority) false).1 = true
    · left
      simp [hu]
    · right
      simp only [Bool.not_eq_true] at hu
      simp [hu]

/-- Witness for C1 (amended): with entries for super admin 1 (snapshot
1) and support technician 2 (snapshot 0), the selected entry is
technician 2 and the high ticket is recorded as a no-super-admin
failure with state otherwise untouched. -/
theorem c1_witness :
    bulkStep [⟨1, "super_admin", "active"⟩, ⟨2, "support_technician", "active"⟩]
      0
      { db := [⟨20, 1, "high", "new", none, 0, none, none⟩]
        counts := [⟨⟨1, "super_admin", "active"⟩, 1, 0⟩,
                   ⟨⟨2, "support_technician", "active"⟩, 0, 0⟩]
        assigned_count := 0
        failures := [] }
      ⟨20, "high", 0⟩
    = { db := [⟨20, 1, "high", "new", none, 0, none, none⟩]
        counts := [⟨⟨1, "super_admin", "active"⟩, 1, 0⟩,
                   ⟨⟨2, "support_technician", "active"⟩, 0, 0⟩]
        assigned_count := 0
        failures := [(20, "No super admin available for high priority request")] } :=
  (c1_high_failure_iff_selected_not_admin _ _ _ _
      ⟨⟨2, "support_technician", "active"⟩, 0, 0⟩
      (by simp [selectMin, pickBest, entryTotal]) rfl).1 (by decide)

/-- Claim C4 (counterexample): the claim quantifies over any flags and
any target; it fails twice on the code.  With `bypass_validation = true`
a solved ticket is moved back to `assigned` with a new assignee, and
even without bypass the accepted same-state no-op (`solved` with the
assignee argument omitted) silently NULLs `assigned_to` of the solved
ticket. -/
theorem c4_counterexample :
    update_help_request_status [⟨1, "member", "active"⟩]
      [⟨5, 1, "low", "solved", some 7, 0, none, some 0⟩]
      10 5 "assigned" (some 3) none true
    = (true, [⟨5, 1, "low", "assigned", some 3, 0, some 10, some 0⟩])
    ∧ update_help_request_status [⟨1, "member", "active"⟩]
      [⟨5, 1, "low", "solved", some 7, 0, none, some 0⟩]
      10 5 "solved" none none false
    = (true, [⟨5, 1, "low", "solved", none, 0, some 10, some 0⟩]) := by
  exact ⟨by decide, by decide⟩

/-- Claim C4 (amended): without `bypass_validation`, a ticket found in
status `solved` admits only the same-state target `solved`: any other
target is rejected with the table unchanged, and every accepted request
has target `solved` and leaves every row with that id in status
`solved`.  (The accepted no-op may still rewrite `assigned_to` and
`priority`, and `bypass_validation = true` skips the check entirely —
see the counterexample.) -/
theorem c4_solved_terminal (users : List User) (db : List HelpRequest)
    (now : ℚ) (rid : Nat) (status : String) (ass : Option Nat)
    (pri : Option String) (t : HelpRequest)
    (hf : db.find? (fun r => r.request_id == rid) = some t)
    (hsolved : t.status = "solved") :
    (status ≠ "solved" →
      update_help_request_status users db now rid status ass pri false
        = (false, db))
    ∧ (∀ db2, update_help_request_status users db now rid status ass pri false
          = (true, db2) →
        status = "solved" ∧ ∀ r ∈ db2, r.request_id = rid → r.status = "solved") := by
  constructor
  · intro hne
    have hv : (validate_status_transition t.status status).isSome = true := by
      rw [hsolved]
      exact validate_from_solved status hne
    unfold update_help_request_status
    rw [hf]
    dsimp only
    split
    · rfl
    · rw [if_pos (by simp [hv])]
  · intro db2 h
    unfold update_help_request_status at h
    rw [hf] at h
    dsimp only at h
    split at h
    · injection h with h1
      cases h1
    · split at h
      · injection h with h1
        cases h1
      next hcnot =>
        have hvnone : validate_status_transition t.status status = none := by
          cases ho : validate_status_transition t.status status with
          | none => rfl
          | some msg => exact absurd (by simp [ho]) hcnot
        have hstat : status = "solved" := by
          apply validate_none_from_solved
          rw [← hsolved]
          exact hvnone
        refine ⟨hstat, ?_⟩
        injection h with h1 h2
        cases h2
        intro r hr hrid
        rcases List.mem_map.mp hr with ⟨r0, hr0, hmap⟩
        by_cases hid : (r0.request_id == rid) = true
        · rw [if_pos hid] at hmap
          rw [← hmap]
          exact hstat
        · rw [if_neg hid] at hmap
          subst hmap
          exact absurd (beq_iff_eq.mpr hrid) hid

/-- Witness for C4 (amended): a transition of a solved ticket to
`assigned` without bypass is rejected and the one-ticket table is
returned unchanged. -/
theorem c4_witness :
    update_help_request_status [⟨1, "member", "active"⟩]
      [⟨5, 1, "low", "solved", some 7, 0, none, some 0⟩]
      10 5 "assigned" none none false
    = (false, [⟨5, 1, "low", "solved", some 7, 0, none, some 0⟩]) :=
  (c4_solved_terminal [⟨1, "member", "active"⟩]
    [⟨5, 1, "low", "solved", some 7, 0, none, some 0⟩] 10 5 "assigned"
    none none ⟨5, 1, "low", "solved", some 7, 0, none, some 0⟩
    (by decide) rfl).1 (by decide)

/-- Claim C6: in the single-ticket assigner, ties in workload are broken
in favour of the earliest-enumerated (lowest-id, since the pool is
ordered by ascending id) candidate: for a two-element pool of equal
finite score the first is selected along with its score, and in any
candidate scan a later candidate tied with an earlier one is never the
selected technician, because only a strictly lower score replaces the
current best. -/
theorem c6_tie_break (w : Nat → WithTop ℚ) (users : List User) (p : String)
    (a b : User) (q : ℚ)
    (hpool : get_available_technicians users p = [a, b])
    (heq : w a.user_id = w b.user_id)
    (hq : w a.user_id = ((q : ℚ) : WithTop ℚ)) :
    find_least_busy_technician users p w = (some a, some ((q : ℚ) : WithTop ℚ))
    ∧ ∀ (l1 l2 l3 : List User) (c : User),
        (findLeastBusyFold w (l1 ++ a :: (l2 ++ b :: l3))).1 = some c →
        c ∈ l1 ++ a :: (l2 ++ l3) := by
  constructor
  · unfold find_least_busy_technician
    rw [hpool]
    rw [if_neg (by simp)]
    unfold findLeastBusyFold
    simp only [List.foldl_cons, List.foldl_nil]
    have h1 : flbStep w (none, ⊤) a = (some a, w a.user_id) :=
      flbStep_pos w (none, ⊤) a (by rw [hq]; exact WithTop.coe_lt_top q)
    rw [h1]
    have h2 : flbStep w (some a, w a.user_id) b = (some a, w a.user_id) :=
      flbStep_neg w (some a, w a.user_id) b
        (by rw [heq]; exact lt_irrefl _)
    rw [h2]
    rw [hq]
  · intro l1 l2 l3 c h
    unfold findLeastBusyFold at h
    rw [show l1 ++ a :: (l2 ++ b :: l3) = (l1 ++ a :: l2) ++ b :: l3 by simp] at h
    rw [List.foldl_append] at h
    have hle : (List.foldl (flbStep w) (none, ⊤) (l1 ++ a :: l2)).2 ≤ w a.user_id :=
      flb_snd_min w (l1 ++ a :: l2) (none, ⊤) a (by simp)
    have hnb : ¬ w b.user_id < (List.foldl (flbStep w) (none, ⊤) (l1 ++ a :: l2)).2 :=
      not_lt.mpr (by rw [← heq]; exact hle)
    rw [flb_skip w _ b l3 hnb] at h
    rcases flb_fst_mem w l3 (List.foldl (flbStep w) (none, ⊤) (l1 ++ a :: l2))
      with hm | ⟨u, hu, hm⟩
    · rw [hm] at h
      rcases flb_fst_mem w (l1 ++ a :: l2) (none, ⊤) with hm2 | ⟨u, hu, hm2⟩
      · rw [hm2] at h
        simp at h
      · rw [hm2] at h
        injection h with h3
        subst h3
        simp only [List.mem_append, List.mem_cons] at hu ⊢
        tauto
    · rw [hm] at h
      injection h with h3
      subst h3
      simp only [List.mem_append, List.mem_cons] at hu ⊢
      tauto

/-- Witness for C6: two active technicians with ids 1 and 2 and equal
score 5 — the assigner selects technician 1. -/
theorem c6_witness :
    find_least_busy_technician
      [⟨1, "super_admin", "active"⟩, ⟨2, "support_technician", "active"⟩]
      "medium" (fun _ => ((5 : ℚ) : WithTop ℚ))
    = (some ⟨1, "super_admin", "active"⟩, some ((5 : ℚ) : WithTop ℚ)) :=
  (c6_tie_break (fun _ => ((5 : ℚ) : WithTop ℚ))
    [⟨1, "super_admin", "active"⟩, ⟨2, "support_technician", "active"⟩]
    "medium" ⟨1, "super_admin", "active"⟩ ⟨2, "support_technician", "active"⟩
    5 (by decide) rfl rfl).1

/-- Claim C7: the workload scorer computes exactly the spec's sum — over
every ticket assigned or blocked to the technician, the product of the
priority weight (urgent 4, medium 2, low 1, anything else including high
1), the status weight (assigned 1, blocked 1/2) and the time factor
`1 + 0.1 * hours since updated_at (falling back to created_at)` — and a
technician with no active tickets scores exactly 0. -/
theorem c7_workload_formula (db : List HelpRequest) (tid : Nat) (now : ℚ) :
    calculate_technician_workload db tid now = workloadSpec db tid now
    ∧ (activeFor db tid = [] → calculate_technician_workload db tid now = 0) := by
  have hreq : requestWeight now = fun r =>
      priorityWeightSpec r.priority * statusWeightSpec r.status *
        (1 + ((now - (r.updated_at.getD r.created_at)) / 3600) * (1/10)) := by
    funext r
    unfold requestWeight
    rw [dictGet_priority_weight, dictGet_status_weight]
  have hfold : ∀ (l : List HelpRequest) (c : ℚ),
      l.foldl (fun acc r => acc + requestWeight now r) c
        = c + (l.map (requestWeight now)).sum := by
    intro l
    induction l with
    | nil => intro c; simp
    | cons r l ih =>
      intro c
      simp only [List.foldl_cons, List.map_cons, List.sum_cons]
      rw [ih]
      ring
  constructor
  · unfold calculate_technician_workload workloadSpec
    dsimp only
    by_cases he : (activeFor db tid).isEmpty
    · rw [if_pos he]
      have h0 : activeFor db tid = [] := by simpa using he
      rw [h0]
      simp
    · rw [if_neg he]
      rw [hfold, zero_add, hreq]
  · intro h0
    unfold calculate_technician_workload
    rw [h0]
    rfl

/-- Witness for C7: a technician with no active tickets scores exactly
0. -/
theorem c7_witness : calculate_technician_workload [] 1 0 = 0 :=
  (c7_workload_formula [] 1 0).2 rfl

/-- Claim C8: for every priority the eligible pool contains only active
technicians drawn from the directory, ordered by ascending id; for
priority `high` it contains only super admins, otherwise only super
admins and support technicians; and when nothing matches it is the empty
list (the function is total — never an error). -/
theorem c8_eligible_pool (users : List User) (priority : String) :
    (∀ u ∈ get_available_technicians users priority, u.status = "active")
    ∧ (∀ u ∈ get_available_technicians users priority, u ∈ users)
    ∧ List.Sorted userIdLe (get_available_technicians users priority)
    ∧ (priority = "high" → ∀ u ∈ get_available_technicians users priority,
        u.platform_role = "super_admin")
    ∧ (priority ≠ "high" → ∀ u ∈ get_available_technicians users priority,
        u.platform_role = "super_admin" ∨ u.platform_role = "support_technician")
    ∧ ((∀ u ∈ users, availablePred priority u = false) →
        get_available_technicians users priority = []) := by
  have hmem : ∀ u, u ∈ get_available_technicians users priority ↔
      u ∈ users ∧ availablePred priority u = true := by
    intro u
    unfold get_available_technicians
    rw [(List.perm_insertionSort userIdLe _).mem_iff]
    exact List.mem_filter
  refine ⟨?_, ?_, ?_, ?_, ?_, ?_⟩
  · intro u hu
    have hp := ((hmem u).mp hu).2
    unfold availablePred at hp
    by_cases h : priority = "high"
    · rw [if_pos h] at hp
      simp at hp
      exact hp.2
    · rw [if_neg h] at hp
      simp at hp
      exact hp.2
  · intro u hu
    exact ((hmem u).mp hu).1
  · exact List.sorted_insertionSort userIdLe _
  · intro hp u hu
    have hq := ((hmem u).mp hu).2
    unfold availablePred at hq
    rw [if_pos hp] at hq
    simp at hq
    exact hq.1
  · intro hp u hu
    have hq := ((hmem u).mp hu).2
    unfold availablePred at hq
    rw [if_neg hp] at hq
    simp at hq
    exact hq.1
  · intro hall
    unfold get_available_technicians
    have h0 : users.filter (availablePred priority) = [] := by
      rw [List.filter_eq_nil_iff]
      intro a ha
      rw [hall a ha]
      simp
    rw [h0]
    rfl

/-- Witness for C8: a directory with no support staff yields the empty
pool for a high priority request. -/
theorem c8_witness :
    get_available_technicians [⟨2, "member", "active"⟩] "high" = [] :=
  (c8_eligible_pool [⟨2, "member", "active"⟩] "high").2.2.2.2.2 (by decide)

/-- Claim C9: the batch distributor processes the backlog as a
permutation of the input sorted ascending by `(priority_rank,
created_at)` with urgent 1, medium 2, low 3 and anything else (including
high) 4; each step's selection is a minimiser of
`current_workload + new_assignments` with ties resolved against later
entries (hence, with the pool in ascending-id order, for the lowest id);
a successful transition increments exactly the selected technician's
`new_assignments` by exactly 1 (all other entries unchanged, expressed
per index) and bumps the assigned count, while a failed transition
leaves every counter and the assigned count unchanged. -/
theorem c9_batch_algorithm :
    (∀ reqs : List ReqRow,
      (sortRequests reqs).Perm reqs ∧ (sortRequests reqs).Sorted reqKeyLe)
    ∧ (priorityRank "urgent" = 1 ∧ priorityRank "medium" = 2
        ∧ priorityRank "low" = 3 ∧ priorityRank "high" = 4
        ∧ ∀ p, p ≠ "urgent" → p ≠ "medium" → p ≠ "low" → priorityRank p = 4)
    ∧ (∀ (l : List Entry) (e : Entry), selectMin l = some e →
        e ∈ l ∧ ∀ x ∈ l, entryTotal e ≤ entryTotal x)
    ∧ (∀ (l1 l2 l3 : List Entry) (a b e : Entry), entryTotal a = entryTotal b →
        selectMin (l1 ++ a :: (l2 ++ b :: l3)) = some e →
        e ∈ l1 ++ a :: (l2 ++ l3))
    ∧ (∀ (uid : Nat) (l : List Entry) (i : Nat),
        (incrementPending uid l)[i]? = (l[i]?).map (fun e =>
          if e.user.user_id = uid then
            { e with new_assignments := e.new_assignments + 1 }
          else e))
    ∧ (∀ (users : List User) (now : ℚ) (s : BulkState) (req : ReqRow)
          (best : Entry),
        selectMin s.counts = some best →
        ¬(req.priority = "high" ∧ best.user.platform_role ≠ "super_admin") →
        ((update_help_request_status users s.db now req.request_id "assigned"
            (some best.user.user_id) (some req.priority) false).1 = true →
          (bulkStep users now s req).counts
            = incrementPending best.user.user_id s.counts
          ∧ (bulkStep users now s req).assigned_count = s.assigned_count + 1)
        ∧ ((update_help_request_status users s.db now req.request_id "assigned"
            (some best.user.user_id) (some req.priority) false).1 = false →
          (bulkStep users now s req).counts = s.counts
          ∧ (bulkStep users now s req).assigned_count = s.assigned_count)) := by
  refine ⟨?_, ?_, ?_, ?_, ?_, ?_⟩
  · intro reqs
    exact ⟨List.perm_insertionSort reqKeyLe reqs,
      List.sorted_insertionSort reqKeyLe reqs⟩
  · refine ⟨rfl, rfl, rfl, rfl, ?_⟩
    exact priorityRank_other
  · intro l e hsel
    cases l with
    | nil => cases hsel
    | cons h0 ts =>
      unfold selectMin at hsel
      injection hsel with hsel
      constructor
      · rcases pb_mem ts h0 with hm | hm
        · rw [← hsel]
          rw [hm]
          exact List.mem_cons_self h0 ts
        · rw [← hsel]
          exact List.mem_cons_of_mem h0 hm
      · intro x hx
        rw [← hsel]
        cases hx with
        | head => exact pb_le ts h0
        | tail _ hx => exact pb_min ts h0 x hx
  · intro l1 l2 l3 a b e htie hsel
    cases l1 with
    | nil =>
      simp only [List.nil_append] at hsel ⊢
      unfold selectMin at hsel
      injection hsel with hsel
      rw [pb_drop_tied l2 l3 a a b (Or.inl rfl) htie] at hsel
      rcases pb_mem (l2 ++ l3) a with hm | hm
      · rw [hm] at hsel
        rw [← hsel]
        exact List.mem_cons_self a (l2 ++ l3)
      · rw [← hsel]
        exact List.mem_cons_of_mem a hm
    | cons h0 ts =>
      simp only [List.cons_append] at hsel ⊢
      unfold selectMin at hsel
      injection hsel with hsel
      rw [show ts ++ a :: (l2 ++ b :: l3) = (ts ++ a :: l2) ++ b :: l3 by simp]
        at hsel
      rw [pb_drop_tied (ts ++ a :: l2) l3 h0 a b (Or.inr (by simp)) htie] at hsel
      rcases pb_mem ((ts ++ a :: l2) ++ l3) h0 with hm | hm
      · rw [hm] at hsel
        rw [← hsel]
        exact List.mem_cons_self h0 _
      · rw [← hsel]
        apply List.mem_cons_of_mem
        simp only [List.mem_append, List.mem_cons] at hm ⊢
        tauto
  · intro uid l i
    unfold incrementPending
    rw [List.getElem?_map]
    cases hl : l[i]? with
    | none => rfl
    | some e =>
      dsimp only [Option.map]
      by_cases hid : e.user.user_id = uid
      · rw [if_pos (beq_iff_eq.mpr hid), if_pos hid]
      · rw [if_neg (fun hc => hid (beq_iff_eq.mp hc)), if_neg hid]
  · intro users now s req best hsel hnot
    unfold bulkStep
    rw [hsel]
    dsimp only
    rw [if_neg hnot]
    constructor
    · intro hT
      simp [hT]
    · intro hF
      simp [hF]

/-- Witness for C9: on a two-entry counter list with totals 1 and 0 the
selected entry is the second one, whose total is at most the first's. -/
theorem c9_witness :
    entryTotal ⟨⟨2, "support_technician", "active"⟩, 0, 0⟩
      ≤ entryTotal ⟨⟨1, "super_admin", "active"⟩, 1, 0⟩ :=
  ((c9_batch_algorithm.2.2.1
      [⟨⟨1, "super_admin", "active"⟩, 1, 0⟩,
       ⟨⟨2, "support_technician", "active"⟩, 0, 0⟩]
      ⟨⟨2, "support_technician", "active"⟩, 0, 0⟩
      (by simp [selectMin, pickBest, entryTotal])).2
    ⟨⟨1, "super_admin", "active"⟩, 1, 0⟩ (by simp))

end EventbridgePlus
